import Mathlib

/-!
Formal model of `react-model-picker` (src/index.tsx).

The source is a React hook `useModelPicker` plus a presentational component
`ModelPicker` built on it.  We embed the hook as an explicit state machine:

* a `HookState` holds the six pieces of React state declared by the hook
  (`apiKeyMap`, `preferredModelMap`, `selectedProvider`, `apiKey`, `modelId`,
  `model`);
* each of the four `useEffect`s of the hook (recompute model, restore on
  provider switch, persist apiKey, persist modelId) becomes a function of the
  committed render state;
* React's passive-effect semantics are modelled by `flush`: effects run in
  declaration order after a committed render, each effect runs exactly when
  its dependency tuple differs from the previous render's, reads inside an
  effect see the committed render (closures), and the queued `setState`s of a
  whole flush are committed together as the next render;
* an external trigger (a setter returned by the hook) commits a render and
  then flushes effects to a fixed point (`stabilize`, fuel-bounded: React
  raises "Maximum update depth exceeded" on a diverging update loop);
* `useState<T>(getModel() as T)` (line 78) evaluates `getModel()` during
  every render; a throw there crashes the component, which `stabilize` and
  `processEvent` model by checking `getModel` on every committed render;
* a thrown JS exception is `Except.error msg`; machine strings stay `String`;
  a JS `undefined` that can flow into `modelId` (e.g. `models[0]` of an empty
  list) is `Option.none`, so `modelId : Option String`.

The SDK provider objects are opaque capabilities: `ProviderDesc.provider`
(the constructor taking `{apiKey}`) and the three model accessors are
caller-supplied functions returning `Except String μ` for an opaque handle
type `μ`.  `Sym` instantiates `μ` with a symbolic handle recording exactly
the inputs a handle was built from, used for concrete executions.

`ModelPicker` adds one more piece of state (`useCustomModelInput`) and two
more effects (sync the flag from `modelId`; snap `modelId` when the flag
turns off); `PickerState`/`pickerFlush` extend the hook machine accordingly.
The `onModelChange` effect only invokes an external callback and changes no
state, so it is not modelled.  The `useLocalStorage` option swaps the state
backend for durable storage with the same get/set semantics; the machine
models the ephemeral (`useState`) backend, which the claims are about.
-/

namespace RMP

/-- `ModelType` enum of the source (values "embedding", "language", "image").
The source's `switch` has a `default:` falling back to `languageModel`; the
TS enum is closed, so that branch is unreachable for well-typed callers and
has no counterpart here. -/
inductive ModelType where
  | embedding
  | language
  | image
deriving DecidableEq

/-- The opaque provider handle returned by `provider({apiKey})`: exposes the
three model-kind accessors.  Each accessor may throw (`Except.error`). -/
structure ProviderObj (μ : Type) where
  languageModel : Option String → Except String μ
  textEmbeddingModel : Option String → Except String μ
  imageModel : Option String → Except String μ

/-- One entry of the `providers` array passed to the hook:
`{ provider, name, models }`.  `provider` is the SDK constructor, called with
the credential; it may throw. -/
structure ProviderDesc (μ : Type) where
  name : String
  provider : String → Except String (ProviderObj μ)
  models : List String

/-- The value stored in the hook's `providerMap` for one provider name. -/
structure ProviderVal (μ : Type) where
  provider : String → Except String (ProviderObj μ)
  models : List String

/-- JS object / `Map` property read: first matching key (keys are unique in
maps built by `mapSet` from `[]`). -/
def alookup {α : Type} : List (String × α) → String → Option α
  | [], _ => none
  | (k', v) :: rest, k => if k' = k then some v else alookup rest k

/-- JS `Map.set` / object spread `{...prev, [k]: v}`: overwrite the existing
entry in place, else append. -/
def mapSet {α : Type} : List (String × α) → String → α → List (String × α)
  | [], k, v => [(k, v)]
  | (k', v') :: rest, k, v =>
      if k' = k then (k, v) :: rest else (k', v') :: mapSet rest k v

/-- JS truthiness of `preferredModelMap[name]` (value may itself be the
`undefined` written by the persist effect): truthy iff present, defined and
non-empty. -/
def jsTruthyOpt : Option (Option String) → Bool
  | some (some s) => s ≠ ""
  | _ => false

/-- JS truthiness of `apiKeyMap[name]`: truthy iff present and non-empty. -/
def jsTruthyStr : Option String → Bool
  | some s => s ≠ ""
  | none => false

/-- JS `Array.prototype.includes` on a string array, with a possibly
`undefined` needle (`undefined` is never an element of a string array). -/
def jsIncludes (l : List String) : Option String → Bool
  | some s => l.contains s
  | none => false

/-- `providerMap` built at lines 37-50: `Map.set` for each provider in list
order (a duplicate name keeps the last entry, as `Map.set` does). -/
def providerMap {μ : Type} (ps : List (ProviderDesc μ)) : List (String × ProviderVal μ) :=
  ps.foldl (fun m p => mapSet m p.name ⟨p.provider, p.models⟩) []

/-- Construct the provider with the credential and select the accessor for
the configured model kind (the body of `getModel` after the map lookup). -/
def buildModel {μ : Type} (mt : ModelType) (v : ProviderVal μ) (key : String)
    (mid : Option String) : Except String μ :=
  match v.provider key with
  | .error e => .error e
  | .ok pro =>
      match mt with
      | .language => pro.languageModel mid
      | .embedding => pro.textEmbeddingModel mid
      | .image => pro.imageModel mid

/-- Thrown by `provider!.languageModel(...)` when the `providerMap` lookup in
`getModel` returned `undefined` (line 53/59). -/
def getModelMissingProviderMsg : String :=
  "TypeError (getModel): cannot call a model accessor of undefined"

/-- Thrown by `providerMap.get(selectedProvider)!.models[0]` in the restore
effect when the lookup returned `undefined` (line 107). -/
def restoreMissingProviderMsg : String :=
  "TypeError (restore effect): cannot read models of undefined"

/-- Thrown by `providers[0].name` when the provider list is empty. -/
def emptyProvidersMsg : String :=
  "TypeError: cannot read name of undefined"

/-- React's guard against an effect/update loop that never settles. -/
def maxDepthMsg : String := "Maximum update depth exceeded"

/-- `getModel` (lines 52-67): look the selected provider up in the map
(`?.` yields `undefined` on a miss, and the later `provider!.…` call then
throws), construct it with the credential, apply the model-kind accessor.
This is evaluated during every render by `useState<T>(getModel() as T)`. -/
def getModel {μ : Type} (ps : List (ProviderDesc μ)) (mt : ModelType)
    (sp key : String) (mid : Option String) : Except String μ :=
  match alookup (providerMap ps) sp with
  | none => .error getModelMissingProviderMsg
  | some v => buildModel mt v key mid

/-- The six pieces of React state of the hook.  `modelId` is `Option String`
because `providers[0].models[0]` is JS `undefined` when the model list is
empty, and `setModelId` can receive that `undefined` from the restore
effect; `preferredModelMap` values are likewise possibly-`undefined`. -/
structure HookState (μ : Type) where
  apiKeyMap : List (String × String)
  preferredModelMap : List (String × Option String)
  selectedProvider : String
  apiKey : String
  modelId : Option String
  model : μ
deriving DecidableEq

/-- Effect 1 (lines 80-101), deps `[apiKey, selectedProvider, modelId]`:
recompute the model.  The `?.` lookup short-circuits to `undefined` and the
`if (provider)` guard then skips the update (so a map miss keeps the old
model in this effect); a throwing constructor or accessor propagates.
Returns `some m` when `setModel(m)` was called, `none` when not. -/
def effect1 {μ : Type} (ps : List (ProviderDesc μ)) (mt : ModelType)
    (s : HookState μ) : Except String (Option μ) :=
  match alookup (providerMap ps) s.selectedProvider with
  | none => .ok none
  | some v =>
      match buildModel mt v s.apiKey s.modelId with
      | .error e => .error e
      | .ok m => .ok (some m)

/-- Effect 2 (lines 103-115), deps `[selectedProvider]`: restore the
remembered model id (truthy check; else first known model id, where the
map lookup is force-unwrapped with `!` and throws on a miss) and the
remembered credential (truthy check; else `""`).  Returns the pair of
values passed to `setModelId` and `setApiKey`. -/
def effect2 {μ : Type} (ps : List (ProviderDesc μ))
    (s : HookState μ) : Except String (Option String × String) :=
  let pref := alookup s.preferredModelMap s.selectedProvider
  let midE : Except String (Option String) :=
    if jsTruthyOpt pref then .ok (pref.getD none)
    else
      match alookup (providerMap ps) s.selectedProvider with
      | none => .error restoreMissingProviderMsg
      | some v => .ok v.models.head?
  match midE with
  | .error e => .error e
  | .ok mid =>
      let akey := alookup s.apiKeyMap s.selectedProvider
      let key := if jsTruthyStr akey then akey.getD "" else ""
      .ok (mid, key)

/-- Run the hook's four effects, in declaration order, on the committed
render `cur`.  `G1`-`G4` say whether each effect's dependency tuple changed
since the previous render (all `True` on mount).  Reads inside an effect see
`cur` (render closures); the queued updates accumulate into the next
committed state.  Effects 3 and 4 (lines 117-129) persist `apiKey` /
`modelId` into the maps under the provider name of the current render. -/
def runEffects {μ : Type} (ps : List (ProviderDesc μ)) (mt : ModelType)
    (G1 G2 G3 G4 : Prop) [Decidable G1] [Decidable G2] [Decidable G3] [Decidable G4]
    (cur : HookState μ) : Except String (HookState μ) :=
  match (if G1 then effect1 ps mt cur else .ok none) with
  | .error e => .error e
  | .ok r1 =>
      let a1 : HookState μ :=
        match r1 with
        | some m => { cur with model := m }
        | none => cur
      match (if G2 then effect2 ps cur else .ok (cur.modelId, cur.apiKey)) with
      | .error e => .error e
      | .ok r2 =>
          let a2 : HookState μ := { a1 with modelId := r2.1, apiKey := r2.2 }
          let a3 : HookState μ :=
            if G3 then
              { a2 with apiKeyMap := mapSet a2.apiKeyMap cur.selectedProvider cur.apiKey }
            else a2
          let a4 : HookState μ :=
            if G4 then
              { a3 with preferredModelMap :=
                  mapSet a3.preferredModelMap cur.selectedProvider cur.modelId }
            else a3
          .ok a4

/-- One passive-effect flush after a committed re-render: each effect runs
iff its dependency array differs from the previous render's. -/
def flush {μ : Type} [DecidableEq μ] (ps : List (ProviderDesc μ)) (mt : ModelType)
    (prev cur : HookState μ) : Except String (HookState μ) :=
  runEffects ps mt
    ((prev.apiKey, prev.selectedProvider, prev.modelId)
       ≠ (cur.apiKey, cur.selectedProvider, cur.modelId))
    (prev.selectedProvider ≠ cur.selectedProvider)
    (prev.apiKey ≠ cur.apiKey)
    (prev.modelId ≠ cur.modelId)
    cur

/-- The mount flush: every effect runs on first render. -/
def flushFirst {μ : Type} (ps : List (ProviderDesc μ)) (mt : ModelType)
    (cur : HookState μ) : Except String (HookState μ) :=
  runEffects ps mt True True True True cur

/-- Flush effects to a fixed point.  Every newly committed render first
re-evaluates `getModel()` (line 78 runs during render and a throw there
crashes the component).  Fuel models React's update-depth guard. -/
def stabilize {μ : Type} [DecidableEq μ] (ps : List (ProviderDesc μ)) (mt : ModelType) :
    Nat → HookState μ → HookState μ → Except String (HookState μ)
  | 0, _, _ => .error maxDepthMsg
  | n + 1, prev, cur =>
      match flush ps mt prev cur with
      | .error e => .error e
      | .ok next =>
          if next = cur then .ok cur
          else
            match getModel ps mt next.selectedProvider next.apiKey next.modelId with
            | .error e => .error e
            | .ok _ => stabilize ps mt n cur next

/-- Ample fuel: a single external trigger settles within three flushes. -/
def hookFuel : Nat := 8

/-- The three setters returned by the hook (lines 131-141). -/
inductive Event where
  | setApiKey (v : String)
  | setModelId (v : String)
  | setSelectedProvider (v : String)
deriving DecidableEq

/-- `setModelId`/`setApiKey`/`setSelectedProvider` perform no validation:
they store the given value directly. -/
def dispatch {μ : Type} : Event → HookState μ → HookState μ
  | .setApiKey v, s => { s with apiKey := v }
  | .setModelId v, s => { s with modelId := some v }
  | .setSelectedProvider v, s => { s with selectedProvider := v }

/-- Process one external trigger on a settled state: update the state, bail
out when the value is unchanged (React skips the re-render), otherwise
commit the render (re-evaluating `getModel()`) and flush effects until the
state settles. -/
def processEvent {μ : Type} [DecidableEq μ] (ps : List (ProviderDesc μ)) (mt : ModelType)
    (s : HookState μ) (e : Event) : Except String (HookState μ) :=
  let cur := dispatch e s
  if cur = s then .ok s
  else
    match getModel ps mt cur.selectedProvider cur.apiKey cur.modelId with
    | .error e' => .error e'
    | .ok _ => stabilize ps mt hookFuel s cur

/-- Process a sequence of external triggers. -/
def processEvents {μ : Type} [DecidableEq μ] (ps : List (ProviderDesc μ)) (mt : ModelType)
    (s : HookState μ) : List Event → Except String (HookState μ)
  | [] => .ok s
  | e :: es =>
      match processEvent ps mt s e with
      | .error err => .error err
      | .ok s' => processEvents ps mt s' es

/-- Events that edit the credential or the model id (not the provider). -/
def isEdit : Event → Bool
  | .setApiKey _ => true
  | .setModelId _ => true
  | .setSelectedProvider _ => false

/-- Like `stabilize`, but returning every committed render in order. -/
def stabilizeTrace {μ : Type} [DecidableEq μ] (ps : List (ProviderDesc μ)) (mt : ModelType) :
    Nat → HookState μ → HookState μ → Except String (List (HookState μ))
  | 0, _, _ => .error maxDepthMsg
  | n + 1, prev, cur =>
      match flush ps mt prev cur with
      | .error e => .error e
      | .ok next =>
          if next = cur then .ok [cur]
          else
            match getModel ps mt next.selectedProvider next.apiKey next.modelId with
            | .error e => .error e
            | .ok _ =>
                match stabilizeTrace ps mt n cur next with
                | .error e => .error e
                | .ok tr => .ok (cur :: tr)

/-- Like `processEvent`, but returning every committed render in order. -/
def processEventTrace {μ : Type} [DecidableEq μ] (ps : List (ProviderDesc μ)) (mt : ModelType)
    (s : HookState μ) (e : Event) : Except String (List (HookState μ)) :=
  let cur := dispatch e s
  if cur = s then .ok [s]
  else
    match getModel ps mt cur.selectedProvider cur.apiKey cur.modelId with
    | .error e' => .error e'
    | .ok _ => stabilizeTrace ps mt hookFuel s cur

/-- The first render (lines 69-78): maps start empty, the selected provider
is `providers[0].name` (a TypeError for an empty list), the credential is
`""`, the model id is `providers[0].models[0]` (JS `undefined` when the
model list is empty, hence `List.head?`), and the model is `getModel()`
evaluated eagerly by the `useState` initializer. -/
def initState {μ : Type} (ps : List (ProviderDesc μ)) (mt : ModelType) :
    Except String (HookState μ) :=
  match ps with
  | [] => .error emptyProvidersMsg
  | p0 :: _ =>
      match getModel ps mt p0.name "" p0.models.head? with
      | .error e => .error e
      | .ok m => .ok ⟨[], [], p0.name, "", p0.models.head?, m⟩

/-- Construct the manager: initial render, mount flush (all effects run),
then settle. -/
def mount {μ : Type} [DecidableEq μ] (ps : List (ProviderDesc μ)) (mt : ModelType) :
    Except String (HookState μ) :=
  match initState ps mt with
  | .error e => .error e
  | .ok s0 =>
      match flushFirst ps mt s0 with
      | .error e => .error e
      | .ok s1 =>
          if s1 = s0 then .ok s0
          else
            match getModel ps mt s1.selectedProvider s1.apiKey s1.modelId with
            | .error e => .error e
            | .ok _ => stabilize ps mt hookFuel s0 s1

/-- `modelIdList` as returned by the hook (line 139):
`providerMap.get(selectedProvider)?.models || []`. -/
def modelIdList {μ : Type} (ps : List (ProviderDesc μ)) (sp : String) : List String :=
  match alookup (providerMap ps) sp with
  | some v => v.models
  | none => []

/-- The `ModelPicker` component state: the hook state plus the
`useCustomModelInput` toggle (line 176, initially `false`). -/
structure PickerState (μ : Type) where
  hook : HookState μ
  useCustomModelInput : Bool
deriving DecidableEq

/-- Run the component's effects in declaration order: the hook's four, then
the flag-sync effect (lines 178-181, deps `[modelId]`: the flag becomes
"modelId not in the list") and the snap effect (lines 183-187, deps
`[useCustomModelInput]`: when the flag is off, `setModelId(modelIdList[0])`).
The `onModelChange` effect (lines 189-193) calls an external callback and
changes no state. -/
def runPickerEffects {μ : Type} (ps : List (ProviderDesc μ)) (mt : ModelType)
    (G1 G2 G3 G4 G5 G6 : Prop)
    [Decidable G1] [Decidable G2] [Decidable G3] [Decidable G4] [Decidable G5] [Decidable G6]
    (cur : PickerState μ) : Except String (PickerState μ) :=
  match runEffects ps mt G1 G2 G3 G4 cur.hook with
  | .error e => .error e
  | .ok h' =>
      let a5 : PickerState μ :=
        if G5 then
          { hook := h',
            useCustomModelInput :=
              !(jsIncludes (modelIdList ps cur.hook.selectedProvider) cur.hook.modelId) }
        else { cur with hook := h' }
      let a6 : PickerState μ :=
        if G6 then
          (if cur.useCustomModelInput then a5
           else { a5 with hook :=
                    { a5.hook with
                        modelId := (modelIdList ps cur.hook.selectedProvider).head? } })
        else a5
      .ok a6

/-- One effect flush of the whole `ModelPicker` component. -/
def pickerFlush {μ : Type} [DecidableEq μ] (ps : List (ProviderDesc μ)) (mt : ModelType)
    (prev cur : PickerState μ) : Except String (PickerState μ) :=
  runPickerEffects ps mt
    ((prev.hook.apiKey, prev.hook.selectedProvider, prev.hook.modelId)
       ≠ (cur.hook.apiKey, cur.hook.selectedProvider, cur.hook.modelId))
    (prev.hook.selectedProvider ≠ cur.hook.selectedProvider)
    (prev.hook.apiKey ≠ cur.hook.apiKey)
    (prev.hook.modelId ≠ cur.hook.modelId)
    (prev.hook.modelId ≠ cur.hook.modelId)
    (prev.useCustomModelInput ≠ cur.useCustomModelInput)
    cur

/-- Flush the component's effects to a fixed point, re-evaluating
`getModel()` on each committed render. -/
def pickerStabilize {μ : Type} [DecidableEq μ] (ps : List (ProviderDesc μ)) (mt : ModelType) :
    Nat → PickerState μ → PickerState μ → Except String (PickerState μ)
  | 0, _, _ => .error maxDepthMsg
  | n + 1, prev, cur =>
      match pickerFlush ps mt prev cur with
      | .error e => .error e
      | .ok next =>
          if next = cur then .ok cur
          else
            match getModel ps mt next.hook.selectedProvider next.hook.apiKey
                next.hook.modelId with
            | .error e => .error e
            | .ok _ => pickerStabilize ps mt n cur next

/-- External triggers on the `ModelPicker` UI: the three setters it forwards
to the hook, and a click on the custom-model toggle (line 275:
`setUseCustomModelInput(!useCustomModelInput)`). -/
inductive PickerEvent where
  | setApiKey (v : String)
  | setModelId (v : String)
  | setSelectedProvider (v : String)
  | toggleCustom
deriving DecidableEq

/-- Apply a `ModelPicker` trigger to the component state. -/
def pickerDispatch {μ : Type} : PickerEvent → PickerState μ → PickerState μ
  | .setApiKey v, s => { s with hook := { s.hook with apiKey := v } }
  | .setModelId v, s => { s with hook := { s.hook with modelId := some v } }
  | .setSelectedProvider v, s => { s with hook := { s.hook with selectedProvider := v } }
  | .toggleCustom, s => { s with useCustomModelInput := !s.useCustomModelInput }

/-- Process one trigger on the `ModelPicker` component. -/
def processPickerEvent {μ : Type} [DecidableEq μ] (ps : List (ProviderDesc μ))
    (mt : ModelType) (s : PickerState μ) (e : PickerEvent) :
    Except String (PickerState μ) :=
  let cur := pickerDispatch e s
  if cur = s then .ok s
  else
    match getModel ps mt cur.hook.selectedProvider cur.hook.apiKey cur.hook.modelId with
    | .error e' => .error e'
    | .ok _ => pickerStabilize ps mt hookFuel s cur

/-- Every provider that is in the map can be constructed with any credential
and accepts any model id: the SDK collaborators never throw. -/
def ConstructTotal {μ : Type} (ps : List (ProviderDesc μ)) (mt : ModelType) : Prop :=
  ∀ nm v, alookup (providerMap ps) nm = some v →
    ∀ key mid, ∃ m, buildModel mt v key mid = .ok m

/-- A symbolic model handle recording exactly what it was derived from. -/
structure Sym where
  prov : String
  key : String
  mid : Option String
  kind : ModelType
deriving DecidableEq

/-- A symbolic provider object: every accessor succeeds and records its
inputs. -/
def symObj (n key : String) : ProviderObj Sym :=
  { languageModel := fun mid => .ok ⟨n, key, mid, .language⟩,
    textEmbeddingModel := fun mid => .ok ⟨n, key, mid, .embedding⟩,
    imageModel := fun mid => .ok ⟨n, key, mid, .image⟩ }

/-- A provider descriptor whose constructor always succeeds, producing
symbolic handles. -/
def symProvider (n : String) (ms : List String) : ProviderDesc Sym :=
  { name := n, provider := fun key => .ok (symObj n key), models := ms }

/-- A provider descriptor whose constructor always throws. -/
def failProvider (n : String) (msg : String) (ms : List String) : ProviderDesc Sym :=
  { name := n, provider := fun _ => .error msg, models := ms }

end RMP

namespace RMP

/-- Providers "A" (models a0, a1) and "B" (model b0) over symbolic handles,
used for concrete executions. -/
def psW : List (ProviderDesc Sym) := [symProvider "A" ["a0", "a1"], symProvider "B" ["b0"]]

/-- A single provider whose known-model list is empty. -/
def psEmptyModels : List (ProviderDesc Sym) := [symProvider "E" []]

/-- A single provider whose constructor throws "boom". -/
def psFail : List (ProviderDesc Sym) := [failProvider "F" "boom" ["m"]]

/-- A hook state over `psFail` with provider "F" selected. -/
def stateF : HookState Sym := ⟨[], [], "F", "", some "m", ⟨"F", "", some "m", .language⟩⟩

/-- A settled hook state over `psW`: "A" selected, both providers carrying
remembered credentials and model ids. -/
def stateAB : HookState Sym :=
  ⟨[("A", "ka"), ("B", "kb")], [("A", some "a0"), ("B", some "b0")], "A", "ka",
    some "a0", ⟨"A", "ka", some "a0", .language⟩⟩

/-- A hook state over `psW` in which the remembered model id for "B" is
present in the map but is the empty string. -/
def stateEmptyPref : HookState Sym :=
  ⟨[("A", "")], [("A", some "a0"), ("B", some "")], "A", "", some "a0",
    ⟨"A", "", some "a0", .language⟩⟩

/-- A freshly mounted hook state over `psW` ("A" selected, no entries for
"B" yet). -/
def stateA : HookState Sym :=
  ⟨[("A", "")], [("A", some "a0")], "A", "", some "a0", ⟨"A", "", some "a0", .language⟩⟩

/-- A hook state whose selected provider name is not in `psW`. -/
def stateUnknown : HookState Sym :=
  ⟨[], [], "X", "", none, ⟨"X", "", none, .language⟩⟩

/-- A `ModelPicker` state over `psW` in list mode whose model id is the
second known model of "A". -/
def pStateList : PickerState Sym :=
  ⟨⟨[("A", "")], [("A", some "a1")], "A", "", some "a1", ⟨"A", "", some "a1", .language⟩⟩,
    false⟩

/-- A `ModelPicker` state over `psW` in custom mode with a custom model id. -/
def pStateCustom : PickerState Sym :=
  ⟨⟨[("A", "")], [("A", some "zz")], "A", "", some "zz", ⟨"A", "", some "zz", .language⟩⟩,
    true⟩

theorem alookup_mapSet_self {α : Type} (m : List (String × α)) (k : String) (v : α) :
    alookup (mapSet m k v) k = some v := by
  induction m with
  | nil => simp [mapSet, alookup]
  | cons p rest ih =>
      obtain ⟨k', v'⟩ := p
      by_cases h : k' = k
      · simp [mapSet, h, alookup]
      · simp [mapSet, h, alookup, ih]

theorem alookup_mapSet_ne {α : Type} (m : List (String × α)) (k k' : String) (v : α)
    (h : k' ≠ k) : alookup (mapSet m k v) k' = alookup m k' := by
  induction m with
  | nil => simp [mapSet, alookup, Ne.symm h]
  | cons p rest ih =>
      obtain ⟨k'', v''⟩ := p
      by_cases h2 : k'' = k
      · subst h2
        simp [mapSet, alookup, Ne.symm h]
      · simp [mapSet, h2, alookup, ih]

theorem flush_self {μ : Type} [DecidableEq μ] (ps : List (ProviderDesc μ)) (mt : ModelType)
    (c : HookState μ) : flush ps mt c c = .ok c := by
  simp [flush, runEffects]

theorem stabilize_run3 {μ : Type} [DecidableEq μ] (ps : List (ProviderDesc μ)) (mt : ModelType)
    (n : Nat) (prev cur next next2 : HookState μ) (mA mB : μ)
    (hf1 : flush ps mt prev cur = .ok next)
    (hrA : getModel ps mt next.selectedProvider next.apiKey next.modelId = .ok mA)
    (hf2 : flush ps mt cur next = .ok next2)
    (hrB : getModel ps mt next2.selectedProvider next2.apiKey next2.modelId = .ok mB)
    (hf3 : flush ps mt next next2 = .ok next2) :
    stabilize ps mt (n + 3) prev cur = .ok next2 := by
  show stabilize ps mt (n + 2 + 1) prev cur = .ok next2
  rw [stabilize]
  simp only [hf1]
  by_cases h1 : next = cur
  · rw [if_pos h1]
    rw [h1, flush_self] at hf2
    injection hf2 with hf2
    rw [hf2]
  · rw [if_neg h1]
    simp only [hrA]
    show stabilize ps mt (n + 1 + 1) cur next = .ok next2
    rw [stabilize]
    simp only [hf2]
    by_cases h2 : next2 = next
    · rw [if_pos h2, h2]
    · rw [if_neg h2]
      simp only [hrB]
      show stabilize ps mt (n + 1) next next2 = .ok next2
      rw [stabilize]
      simp [hf3]

end RMP

namespace RMP

theorem processEvent_setApiKey {μ : Type} [DecidableEq μ] (ps : List (ProviderDesc μ))
    (mt : ModelType) (s : HookState μ) (v : String) (vp : ProviderVal μ) (m1 : μ)
    (hsp : alookup (providerMap ps) s.selectedProvider = some vp)
    (hb : buildModel mt vp v s.modelId = .ok m1)
    (hv : v ≠ s.apiKey) :
    processEvent ps mt s (.setApiKey v) =
      .ok { s with
        apiKey := v,
        model := m1,
        apiKeyMap := mapSet s.apiKeyMap s.selectedProvider v } := by
  have hcur : ({ s with apiKey := v } : HookState μ) ≠ s := by
    intro h
    exact hv (congrArg HookState.apiKey h)
  have hf1 : flush ps mt s { s with apiKey := v } =
      .ok { s with
        apiKey := v,
        model := m1,
        apiKeyMap := mapSet s.apiKeyMap s.selectedProvider v } := by
    simp [flush, runEffects, effect1, hsp, hb, Ne.symm hv]
  have hrA : getModel ps mt s.selectedProvider v s.modelId = .ok m1 := by
    simp [getModel, hsp, hb]
  have hf2 : flush ps mt { s with apiKey := v }
      { s with
        apiKey := v,
        model := m1,
        apiKeyMap := mapSet s.apiKeyMap s.selectedProvider v } =
      .ok { s with
        apiKey := v,
        model := m1,
        apiKeyMap := mapSet s.apiKeyMap s.selectedProvider v } := by
    simp [flush, runEffects]
  simp only [processEvent, dispatch]
  rw [if_neg hcur]
  simp only [hrA]
  exact stabilize_run3 ps mt 5 s _ _ _ m1 m1 hf1 hrA hf2 hrA hf2

theorem processEvent_setModelId {μ : Type} [DecidableEq μ] (ps : List (ProviderDesc μ))
    (mt : ModelType) (s : HookState μ) (v : String) (vp : ProviderVal μ) (m1 : μ)
    (hsp : alookup (providerMap ps) s.selectedProvider = some vp)
    (hb : buildModel mt vp s.apiKey (some v) = .ok m1)
    (hv : some v ≠ s.modelId) :
    processEvent ps mt s (.setModelId v) =
      .ok { s with
        modelId := some v,
        model := m1,
        preferredModelMap := mapSet s.preferredModelMap s.selectedProvider (some v) } := by
  have hcur : ({ s with modelId := some v } : HookState μ) ≠ s := by
    intro h
    exact hv (congrArg HookState.modelId h)
  have hf1 : flush ps mt s { s with modelId := some v } =
      .ok { s with
        modelId := some v,
        model := m1,
        preferredModelMap := mapSet s.preferredModelMap s.selectedProvider (some v) } := by
    simp [flush, runEffects, effect1, hsp, hb, Ne.symm hv]
  have hrA : getModel ps mt s.selectedProvider s.apiKey (some v) = .ok m1 := by
    simp [getModel, hsp, hb]
  have hf2 : flush ps mt { s with modelId := some v }
      { s with
        modelId := some v,
        model := m1,
        preferredModelMap := mapSet s.preferredModelMap s.selectedProvider (some v) } =
      .ok { s with
        modelId := some v,
        model := m1,
        preferredModelMap := mapSet s.preferredModelMap s.selectedProvider (some v) } := by
    simp [flush, runEffects]
  simp only [processEvent, dispatch]
  rw [if_neg hcur]
  simp only [hrA]
  exact stabilize_run3 ps mt 5 s _ _ _ m1 m1 hf1 hrA hf2 hrA hf2

end RMP

namespace RMP

theorem processEvent_switch {μ : Type} [DecidableEq μ] (ps : List (ProviderDesc μ))
    (mt : ModelType) (s : HookState μ) (v : String) (vB : ProviderVal μ)
    (rm : Option String) (rk : String) (m1 m2 : μ)
    (hv : v ≠ s.selectedProvider)
    (hB : alookup (providerMap ps) v = some vB)
    (h2 : effect2 ps { s with selectedProvider := v } = .ok (rm, rk))
    (hb1 : buildModel mt vB s.apiKey s.modelId = .ok m1)
    (hb2 : buildModel mt vB rk rm = .ok m2) :
    processEvent ps mt s (.setSelectedProvider v) =
      .ok { apiKeyMap := if rk = s.apiKey then s.apiKeyMap else mapSet s.apiKeyMap v rk,
            preferredModelMap :=
              if rm = s.modelId then s.preferredModelMap else mapSet s.preferredModelMap v rm,
            selectedProvider := v,
            apiKey := rk,
            modelId := rm,
            model := if rk = s.apiKey ∧ rm = s.modelId then m1 else m2 } := by
  have hcur : ({ s with selectedProvider := v } : HookState μ) ≠ s := by
    intro h
    exact hv (congrArg HookState.selectedProvider h)
  have hrCur : getModel ps mt v s.apiKey s.modelId = .ok m1 := by
    simp [getModel, hB, hb1]
  have hrNew : getModel ps mt v rk rm = .ok m2 := by
    simp [getModel, hB, hb2]
  have hf1 : flush ps mt s { s with selectedProvider := v } =
      .ok { s with
        selectedProvider := v,
        apiKey := rk,
        modelId := rm,
        model := m1 } := by
    simp [flush, runEffects, effect1, hB, hb1, h2, Ne.symm hv]
  have hf2 : flush ps mt { s with selectedProvider := v }
      { s with
        selectedProvider := v,
        apiKey := rk,
        modelId := rm,
        model := m1 } =
      .ok { apiKeyMap := if rk = s.apiKey then s.apiKeyMap else mapSet s.apiKeyMap v rk,
            preferredModelMap :=
              if rm = s.modelId then s.preferredModelMap else mapSet s.preferredModelMap v rm,
            selectedProvider := v,
            apiKey := rk,
            modelId := rm,
            model := if rk = s.apiKey ∧ rm = s.modelId then m1 else m2 } := by
    by_cases hk : rk = s.apiKey <;> by_cases hm : rm = s.modelId
    · subst hk; subst hm
      simp [flush, runEffects, effect1, hB, hb2]
    · subst hk
      simp [flush, runEffects, effect1, hB, hb2, hm, Ne.symm hm]
    · subst hm
      simp [flush, runEffects, effect1, hB, hb2, hk, Ne.symm hk]
    · simp [flush, runEffects, effect1, hB, hb2, hk, hm, Ne.symm hk, Ne.symm hm]
  have hf3 : flush ps mt
      { s with
        selectedProvider := v,
        apiKey := rk,
        modelId := rm,
        model := m1 }
      { apiKeyMap := if rk = s.apiKey then s.apiKeyMap else mapSet s.apiKeyMap v rk,
        preferredModelMap :=
          if rm = s.modelId then s.preferredModelMap else mapSet s.preferredModelMap v rm,
        selectedProvider := v,
        apiKey := rk,
        modelId := rm,
        model := if rk = s.apiKey ∧ rm = s.modelId then m1 else m2 } =
      .ok { apiKeyMap := if rk = s.apiKey then s.apiKeyMap else mapSet s.apiKeyMap v rk,
            preferredModelMap :=
              if rm = s.modelId then s.preferredModelMap else mapSet s.preferredModelMap v rm,
            selectedProvider := v,
            apiKey := rk,
            modelId := rm,
            model := if rk = s.apiKey ∧ rm = s.modelId then m1 else m2 } := by
    simp [flush, runEffects]
  simp only [processEvent, dispatch]
  rw [if_neg hcur]
  simp only [hrCur]
  exact stabilize_run3 ps mt 5 s _ _ _ m2 m2 hf1 hrNew hf2 hrNew hf3

end RMP

namespace RMP

theorem effect2_eq {μ : Type} (ps : List (ProviderDesc μ)) (s : HookState μ)
    (vB : ProviderVal μ)
    (hB : alookup (providerMap ps) s.selectedProvider = some vB) :
    effect2 ps s = .ok
      (if jsTruthyOpt (alookup s.preferredModelMap s.selectedProvider)
         then (alookup s.preferredModelMap s.selectedProvider).getD none
         else vB.models.head?,
       if jsTruthyStr (alookup s.apiKeyMap s.selectedProvider)
         then (alookup s.apiKeyMap s.selectedProvider).getD "" else "") := by
  unfold effect2
  by_cases h : jsTruthyOpt (alookup s.preferredModelMap s.selectedProvider)
  · simp [h]
  · simp [h, hB]

theorem edits_preserve {μ : Type} [DecidableEq μ] (ps : List (ProviderDesc μ))
    (mt : ModelType) (hCT : ConstructTotal ps mt) :
    ∀ (edits : List Event), (∀ e ∈ edits, isEdit e = true) →
      ∀ (s : HookState μ) (vp : ProviderVal μ),
        alookup (providerMap ps) s.selectedProvider = some vp →
        ∃ s', processEvents ps mt s edits = .ok s' ∧
          s'.selectedProvider = s.selectedProvider ∧
          (∀ n, n ≠ s.selectedProvider →
            alookup s'.apiKeyMap n = alookup s.apiKeyMap n ∧
            alookup s'.preferredModelMap n = alookup s.preferredModelMap n) := by
  intro edits
  induction edits with
  | nil =>
      intro _ s vp hsp
      exact ⟨s, rfl, rfl, fun n _ => ⟨rfl, rfl⟩⟩
  | cons e rest ih =>
      intro hed s vp hsp
      have hedrest : ∀ e' ∈ rest, isEdit e' = true := fun e' he' => hed e' (by simp [he'])
      match e with
      | .setApiKey v =>
          by_cases hveq : v = s.apiKey
          · have hstep : processEvent ps mt s (.setApiKey v) = .ok s := by
              subst hveq
              simp [processEvent, dispatch]
            obtain ⟨s', hrun, hsp', hpres⟩ := ih hedrest s vp hsp
            refine ⟨s', ?_, hsp', hpres⟩
            simp only [processEvents, hstep, hrun]
          · obtain ⟨m1, hb⟩ := hCT _ vp hsp v s.modelId
            have hstep := processEvent_setApiKey ps mt s v vp m1 hsp hb hveq
            obtain ⟨s', hrun, hsp', hpres⟩ := ih hedrest
              { s with
                apiKey := v,
                model := m1,
                apiKeyMap := mapSet s.apiKeyMap s.selectedProvider v } vp hsp
            refine ⟨s', ?_, hsp', fun n hn => ?_⟩
            · simp only [processEvents, hstep, hrun]
            · obtain ⟨h1, h2⟩ := hpres n hn
              exact ⟨h1.trans (alookup_mapSet_ne _ _ _ _ hn), h2⟩
      | .setModelId v =>
          by_cases hveq : some v = s.modelId
          · have hstep : processEvent ps mt s (.setModelId v) = .ok s := by
              simp [processEvent, dispatch, hveq]
            obtain ⟨s', hrun, hsp', hpres⟩ := ih hedrest s vp hsp
            refine ⟨s', ?_, hsp', hpres⟩
            simp only [processEvents, hstep, hrun]
          · obtain ⟨m1, hb⟩ := hCT _ vp hsp s.apiKey (some v)
            have hstep := processEvent_setModelId ps mt s v vp m1 hsp hb hveq
            obtain ⟨s', hrun, hsp', hpres⟩ := ih hedrest
              { s with
                modelId := some v,
                model := m1,
                preferredModelMap := mapSet s.preferredModelMap s.selectedProvider (some v) } vp hsp
            refine ⟨s', ?_, hsp', fun n hn => ?_⟩
            · simp only [processEvents, hstep, hrun]
            · obtain ⟨h1, h2⟩ := hpres n hn
              exact ⟨h1, h2.trans (alookup_mapSet_ne _ _ _ _ hn)⟩
      | .setSelectedProvider v =>
          have hbad : isEdit (Event.setSelectedProvider v) = true :=
            hed (Event.setSelectedProvider v) (List.mem_cons_self _ _)
          simp [isEdit] at hbad

end RMP

namespace RMP

theorem pickerFlush_self {μ : Type} [DecidableEq μ] (ps : List (ProviderDesc μ))
    (mt : ModelType) (c : PickerState μ) : pickerFlush ps mt c c = .ok c := by
  obtain ⟨⟨f1, f2, f3, f4, f5, f6⟩, fl⟩ := c
  by_cases hfl : fl <;>
    simp [pickerFlush, runPickerEffects, runEffects, hfl]

theorem pickerStabilize_run3 {μ : Type} [DecidableEq μ] (ps : List (ProviderDesc μ))
    (mt : ModelType) (n : Nat) (prev cur next next2 : PickerState μ) (mA mB : μ)
    (hf1 : pickerFlush ps mt prev cur = .ok next)
    (hrA : getModel ps mt next.hook.selectedProvider next.hook.apiKey next.hook.modelId
      = .ok mA)
    (hf2 : pickerFlush ps mt cur next = .ok next2)
    (hrB : getModel ps mt next2.hook.selectedProvider next2.hook.apiKey next2.hook.modelId
      = .ok mB)
    (hf3 : pickerFlush ps mt next next2 = .ok next2) :
    pickerStabilize ps mt (n + 3) prev cur = .ok next2 := by
  show pickerStabilize ps mt (n + 2 + 1) prev cur = .ok next2
  rw [pickerStabilize]
  simp only [hf1]
  by_cases h1 : next = cur
  · rw [if_pos h1]
    rw [h1, pickerFlush_self] at hf2
    injection hf2 with hf2
    rw [hf2]
  · rw [if_neg h1]
    simp only [hrA]
    show pickerStabilize ps mt (n + 1 + 1) cur next = .ok next2
    rw [pickerStabilize]
    simp only [hf2]
    by_cases h2 : next2 = next
    · rw [if_pos h2, h2]
    · rw [if_neg h2]
      simp only [hrB]
      show pickerStabilize ps mt (n + 1) next next2 = .ok next2
      rw [pickerStabilize]
      simp [hf3]

end RMP

namespace RMP

theorem stabilize_fix {μ : Type} [DecidableEq μ] (ps : List (ProviderDesc μ))
    (mt : ModelType) (n : Nat) (prev cur : HookState μ)
    (hf : flush ps mt prev cur = .ok cur) :
    stabilize ps mt (n + 1) prev cur = .ok cur := by
  rw [stabilize]
  simp [hf]

theorem psW_total (mt : ModelType) : ConstructTotal psW mt := by
  intro nm v h key mid
  have hpm : providerMap psW =
      [("A", ⟨fun key => .ok (symObj "A" key), ["a0", "a1"]⟩),
       ("B", ⟨fun key => .ok (symObj "B" key), ["b0"]⟩)] := rfl
  rw [hpm] at h
  simp only [alookup] at h
  by_cases hA : "A" = nm
  · rw [if_pos hA] at h
    injection h with h
    subst h
    cases mt <;> exact ⟨_, rfl⟩
  · rw [if_neg hA] at h
    by_cases hB : "B" = nm
    · rw [if_pos hB] at h
      injection h with h
      subst h
      cases mt <;> exact ⟨_, rfl⟩
    · rw [if_neg hB] at h
      exact Option.noConfusion h

/-- C10: in every state whose selected provider name is not a key of the
provider map, the `modelIdList` value returned by the hook is the empty
list: the `providerMap.get(selectedProvider)?.models || []` chain absorbs
the missing entry, so this accessor is total and never fails, even though
the restore path for the same unknown name would throw. -/
theorem c10_modelIdList_unknown_empty {μ : Type} (ps : List (ProviderDesc μ))
    (s : HookState μ)
    (h : alookup (providerMap ps) s.selectedProvider = none) :
    modelIdList ps s.selectedProvider = [] := by
  simp [modelIdList, h]

/-- Witness for C10 at the concrete state `stateUnknown` over `psW`. -/
theorem c10_modelIdList_unknown_empty_witness :
    modelIdList psW stateUnknown.selectedProvider = [] :=
  c10_modelIdList_unknown_empty psW stateUnknown (by rfl)

/-- C9 counterexample: switching to the unknown name "Nope" from `stateA`
over `psW` is accepted by the setter, but the processing then fails with
the render-time `getModel` dereference of the missing provider entry, not
with the restore effect's own missing-entry dereference (the restore
effect never runs): the error is `getModelMissingProviderMsg`, which
differs from `restoreMissingProviderMsg`. -/
theorem c9_counterexample :
    processEvent psW ModelType.language stateA (.setSelectedProvider "Nope")
        = .error getModelMissingProviderMsg ∧
      getModelMissingProviderMsg ≠ restoreMissingProviderMsg := by
  constructor
  · rfl
  · decide

/-- C9 amended: `setSelectedProvider(name)` for a name absent from the
provider map is accepted without any validation (the dispatched state
simply records the unknown name), and processing the switch then crashes:
the re-render evaluates `getModel()` (line 78), whose `providerMap` lookup
misses and whose subsequent `provider!.…` call throws.  The crash precedes
the restore effect, so the restore algorithm's own missing-entry branch
(line 107) is not the one that fires. -/
theorem c9_unknown_name_accepted_then_render_crash {μ : Type} [DecidableEq μ]
    (ps : List (ProviderDesc μ)) (mt : ModelType) (s : HookState μ) (name : String)
    (hnone : alookup (providerMap ps) name = none)
    (hne : name ≠ s.selectedProvider) :
    dispatch (Event.setSelectedProvider name) s = { s with selectedProvider := name } ∧
      processEvent ps mt s (.setSelectedProvider name)
        = .error getModelMissingProviderMsg := by
  refine ⟨rfl, ?_⟩
  have hcur : ({ s with selectedProvider := name } : HookState μ) ≠ s := by
    intro h
    exact hne (congrArg HookState.selectedProvider h)
  simp only [processEvent, dispatch]
  rw [if_neg hcur]
  simp [getModel, hnone]

/-- Witness for C9's amended theorem: the unknown name "Nope" over `psW`. -/
theorem c9_unknown_name_accepted_then_render_crash_witness :
    dispatch (Event.setSelectedProvider "Nope") stateA
        = { stateA with selectedProvider := "Nope" } ∧
      processEvent psW ModelType.language stateA (.setSelectedProvider "Nope")
        = .error getModelMissingProviderMsg :=
  c9_unknown_name_accepted_then_render_crash psW ModelType.language stateA "Nope"
    (by rfl) (by decide)

/-- C7 counterexample: over `psFail` (whose constructor throws "boom"),
`setApiKey "x"` from `stateF` makes `processEvent` fail with "boom": the
construction failure is not caught anywhere, so the manager neither
retains the previous handle nor marks anything unavailable -- the failure
propagates as a crash, contradicting the claim. -/
theorem c7_counterexample :
    processEvent psFail ModelType.language stateF (.setApiKey "x") = .error "boom" := by
  rfl

/-- C7 amended: there is no try/catch anywhere in the hook.  Whenever
`getModel` fails at the state produced by an edit (a failing constructor,
a failing accessor, or a missing provider entry), the very next render
crashes with that failure; the previous `activeModelHandle` is not
retained and no unavailability marking exists. -/
theorem c7_construction_failure_propagates {μ : Type} [DecidableEq μ]
    (ps : List (ProviderDesc μ)) (mt : ModelType) (s : HookState μ) (v msg : String)
    (hv : v ≠ s.apiKey)
    (hfail : getModel ps mt s.selectedProvider v s.modelId = .error msg) :
    processEvent ps mt s (.setApiKey v) = .error msg := by
  have hcur : ({ s with apiKey := v } : HookState μ) ≠ s := by
    intro h
    exact hv (congrArg HookState.apiKey h)
  simp only [processEvent, dispatch]
  rw [if_neg hcur]
  simp [hfail]

/-- Witness for C7's amended theorem over `psFail`. -/
theorem c7_construction_failure_propagates_witness :
    processEvent psFail ModelType.language stateF (.setApiKey "x") = .error "boom" :=
  c7_construction_failure_propagates psFail ModelType.language stateF "x" "boom"
    (by decide) (by rfl)

end RMP

namespace RMP

/-- C3 counterexample: for the provider list `psEmptyModels`, whose only
provider has an empty known-model list, the freshly constructed manager
has `modelId = none` (JS `undefined`, the value of `providers[0].models[0]`),
not the empty string the claim requires. -/
theorem c3_counterexample :
    mount psEmptyModels ModelType.language =
        .ok ⟨[("E", "")], [("E", none)], "E", "", none, ⟨"E", "", none, .language⟩⟩ ∧
      (none : Option String) ≠ some "" := by
  exact ⟨rfl, by decide⟩

/-- C3 amended: for every non-empty providerList a freshly constructed
manager has `selectedProvider = providerList[0].name`, `credential = ""`,
and `modelId = providerList[0].knownModelIds[0]` when that list is
non-empty and JS `undefined` (not the empty string) when it is empty;
mounting also seeds the two persistence maps with the initial values. -/
theorem c3_mount_initial_state {μ : Type} [DecidableEq μ] (p0 : ProviderDesc μ)
    (rest : List (ProviderDesc μ)) (mt : ModelType) (vp : ProviderVal μ) (m0 : μ)
    (hlk : alookup (providerMap (p0 :: rest)) p0.name = some vp)
    (hmods : vp.models = p0.models)
    (hb : buildModel mt vp "" p0.models.head? = .ok m0) :
    mount (p0 :: rest) mt = .ok
      { apiKeyMap := [(p0.name, "")],
        preferredModelMap := [(p0.name, p0.models.head?)],
        selectedProvider := p0.name,
        apiKey := "",
        modelId := p0.models.head?,
        model := m0 } := by
  have hinit : initState (p0 :: rest) mt =
      .ok ⟨[], [], p0.name, "", p0.models.head?, m0⟩ := by
    simp [initState, getModel, hlk, hb]
  have hff : flushFirst (p0 :: rest) mt ⟨[], [], p0.name, "", p0.models.head?, m0⟩ =
      .ok ⟨[(p0.name, "")], [(p0.name, p0.models.head?)], p0.name, "",
        p0.models.head?, m0⟩ := by
    simp [flushFirst, runEffects, effect1, effect2, hlk, hb, hmods, alookup,
      jsTruthyOpt, jsTruthyStr, mapSet]
  have hne : (⟨[(p0.name, "")], [(p0.name, p0.models.head?)], p0.name, "",
      p0.models.head?, m0⟩ : HookState μ)
      ≠ ⟨[], [], p0.name, "", p0.models.head?, m0⟩ := by
    intro h
    exact List.noConfusion (congrArg HookState.apiKeyMap h)
  have hr : getModel (p0 :: rest) mt p0.name "" p0.models.head? = .ok m0 := by
    simp [getModel, hlk, hb]
  have hfix : flush (p0 :: rest) mt
      (⟨[], [], p0.name, "", p0.models.head?, m0⟩ : HookState μ)
      ⟨[(p0.name, "")], [(p0.name, p0.models.head?)], p0.name, "",
        p0.models.head?, m0⟩ =
      .ok ⟨[(p0.name, "")], [(p0.name, p0.models.head?)], p0.name, "",
        p0.models.head?, m0⟩ := by
    simp [flush, runEffects]
  simp only [mount, hinit, hff]
  rw [if_neg hne]
  simp only [hr]
  exact stabilize_fix _ mt 7 _ _ hfix

/-- Witness for C3's amended theorem: mounting over `psW`. -/
theorem c3_mount_initial_state_witness :
    mount psW ModelType.language = .ok
      { apiKeyMap := [("A", "")],
        preferredModelMap := [("A", some "a0")],
        selectedProvider := "A",
        apiKey := "",
        modelId := some "a0",
        model := (⟨"A", "", some "a0", .language⟩ : Sym) } :=
  c3_mount_initial_state (symProvider "A" ["a0", "a1"]) [symProvider "B" ["b0"]]
    ModelType.language ⟨fun key => .ok (symObj "A" key), ["a0", "a1"]⟩
    ⟨"A", "", some "a0", .language⟩ (by rfl) (by rfl) (by rfl)

end RMP

namespace RMP

/-- C4 counterexample: mount over `psW`, switch to the never-visited "B"
(the restore leaves the credential `""`, unchanged, so the persist effect
does not run), then call `setApiKey ""` while "B" is selected.  The call
succeeds, yet the credential map afterwards is `[("A", "")]`: it has no
entry at all for "B", contradicting "every successful setCredential writes
(selectedProviderName → value) into the credential map". -/
theorem c4_counterexample :
    (Except.bind (mount psW ModelType.language) (fun s =>
        processEvents psW ModelType.language s [.setSelectedProvider "B", .setApiKey ""]))
      = .ok ⟨[("A", "")], [("A", some "a0"), ("B", some "b0")], "B", "", some "b0",
          ⟨"B", "", some "b0", .language⟩⟩ ∧
    alookup [("A", "")] "B" = none := by
  exact ⟨rfl, rfl⟩

/-- C4 amended: a `setCredential` (resp. `setModelId`) call that changes the
current value writes (selectedProviderName → value) into the credential
(resp. model-id) map, under the provider name in effect at the time of the
write, leaving the other map untouched and every other provider's entries
unchanged; a call that re-sets the already-current value performs no map
write at all, leaving even an absent entry absent. -/
theorem c4_persist_and_isolation {μ : Type} [DecidableEq μ] (ps : List (ProviderDesc μ))
    (mt : ModelType) (s : HookState μ) (vp : ProviderVal μ) (v w : String) (mk mm : μ)
    (hsp : alookup (providerMap ps) s.selectedProvider = some vp)
    (hbk : buildModel mt vp v s.modelId = .ok mk)
    (hbm : buildModel mt vp s.apiKey (some w) = .ok mm)
    (hvk : v ≠ s.apiKey) (hvm : some w ≠ s.modelId) :
    (∃ s', processEvent ps mt s (.setApiKey v) = .ok s' ∧
      alookup s'.apiKeyMap s.selectedProvider = some v ∧
      s'.preferredModelMap = s.preferredModelMap ∧
      ∀ n, n ≠ s.selectedProvider → alookup s'.apiKeyMap n = alookup s.apiKeyMap n) ∧
    (∃ s', processEvent ps mt s (.setModelId w) = .ok s' ∧
      alookup s'.preferredModelMap s.selectedProvider = some (some w) ∧
      s'.apiKeyMap = s.apiKeyMap ∧
      ∀ n, n ≠ s.selectedProvider →
        alookup s'.preferredModelMap n = alookup s.preferredModelMap n) := by
  constructor
  · refine ⟨_, processEvent_setApiKey ps mt s v vp mk hsp hbk hvk, ?_, rfl, ?_⟩
    · exact alookup_mapSet_self _ _ _
    · intro n hn
      exact alookup_mapSet_ne _ _ _ _ hn
  · refine ⟨_, processEvent_setModelId ps mt s w vp mm hsp hbm hvm, ?_, rfl, ?_⟩
    · exact alookup_mapSet_self _ _ _
    · intro n hn
      exact alookup_mapSet_ne _ _ _ _ hn

/-- Witness for C4's amended theorem: editing both values at `stateAB`. -/
theorem c4_persist_and_isolation_witness :
    (∃ s', processEvent psW ModelType.language stateAB (.setApiKey "zz") = .ok s' ∧
      alookup s'.apiKeyMap stateAB.selectedProvider = some "zz" ∧
      s'.preferredModelMap = stateAB.preferredModelMap ∧
      ∀ n, n ≠ stateAB.selectedProvider →
        alookup s'.apiKeyMap n = alookup stateAB.apiKeyMap n) ∧
    (∃ s', processEvent psW ModelType.language stateAB (.setModelId "zz") = .ok s' ∧
      alookup s'.preferredModelMap stateAB.selectedProvider = some (some "zz") ∧
      s'.apiKeyMap = stateAB.apiKeyMap ∧
      ∀ n, n ≠ stateAB.selectedProvider →
        alookup s'.preferredModelMap n = alookup stateAB.preferredModelMap n) :=
  c4_persist_and_isolation psW ModelType.language stateAB
    ⟨fun key => .ok (symObj "A" key), ["a0", "a1"]⟩ "zz" "zz"
    ⟨"A", "zz", some "a0", .language⟩ ⟨"A", "ka", some "zz", .language⟩
    (by rfl) (by rfl) (by rfl) (by decide) (by decide)

end RMP

namespace RMP

/-- C2 counterexample: in `stateEmptyPref` the remembered model id for "B"
is present in the model-id map (the entry is the empty string), yet
switching to "B" sets the model id to "b0" (= B.knownModelIds[0]), not to
the remembered "": the restore uses a JS truthiness test, not a presence
test, so a present-but-empty remembered value is ignored. -/
theorem c2_counterexample :
    alookup stateEmptyPref.preferredModelMap "B" = some (some "") ∧
      processEvent psW ModelType.language stateEmptyPref (.setSelectedProvider "B")
        = .ok ⟨[("A", "")], [("A", some "a0"), ("B", some "b0")], "B", "", some "b0",
            ⟨"B", "", some "b0", .language⟩⟩ ∧
      (some "b0" : Option String) ≠ some "" := by
  exact ⟨rfl, rfl, by decide⟩

/-- C2 amended: for every successful switch to a different provider P in
the map, the model id becomes the remembered model id for P whenever a
non-empty (truthy) one is stored, else P's first known model id (JS
`undefined`, not `""`, when P has none), and the credential becomes the
remembered credential for P whenever a non-empty (truthy) one is stored,
else `""`; in particular a never-visited P (no entries in either map)
yields credential `""` and model id P.knownModelIds[0]. -/
theorem c2_switch_restore {μ : Type} [DecidableEq μ] (ps : List (ProviderDesc μ))
    (mt : ModelType) (s : HookState μ) (v : String) (vB : ProviderVal μ)
    (hv : v ≠ s.selectedProvider)
    (hB : alookup (providerMap ps) v = some vB)
    (hCT : ConstructTotal ps mt) :
    ∃ s', processEvent ps mt s (.setSelectedProvider v) = .ok s' ∧
      s'.selectedProvider = v ∧
      s'.modelId = (if jsTruthyOpt (alookup s.preferredModelMap v)
        then (alookup s.preferredModelMap v).getD none else vB.models.head?) ∧
      s'.apiKey = (if jsTruthyStr (alookup s.apiKeyMap v)
        then (alookup s.apiKeyMap v).getD "" else "") ∧
      (alookup s.preferredModelMap v = none → alookup s.apiKeyMap v = none →
        s'.modelId = vB.models.head? ∧ s'.apiKey = "") := by
  obtain ⟨m1, hb1⟩ := hCT v vB hB s.apiKey s.modelId
  obtain ⟨m2, hb2⟩ := hCT v vB hB
    (if jsTruthyStr (alookup s.apiKeyMap v) then (alookup s.apiKeyMap v).getD "" else "")
    (if jsTruthyOpt (alookup s.preferredModelMap v)
      then (alookup s.preferredModelMap v).getD none else vB.models.head?)
  have h2 : effect2 ps { s with selectedProvider := v } = .ok
      (if jsTruthyOpt (alookup s.preferredModelMap v)
         then (alookup s.preferredModelMap v).getD none else vB.models.head?,
       if jsTruthyStr (alookup s.apiKeyMap v)
         then (alookup s.apiKeyMap v).getD "" else "") := by
    exact effect2_eq ps { s with selectedProvider := v } vB hB
  have hrun := processEvent_switch ps mt s v vB _ _ m1 m2 hv hB h2 hb1 hb2
  refine ⟨_, hrun, rfl, rfl, rfl, fun h1 h0 => ?_⟩
  constructor
  · simp [h1, jsTruthyOpt]
  · simp [h0, jsTruthyStr]

/-- Witness for C2's amended theorem: switching from `stateA` to the
never-visited provider "B" of `psW`. -/
theorem c2_switch_restore_witness :
    ∃ s', processEvent psW ModelType.language stateA (.setSelectedProvider "B") = .ok s' ∧
      s'.selectedProvider = "B" ∧
      s'.modelId = (if jsTruthyOpt (alookup stateA.preferredModelMap "B")
        then (alookup stateA.preferredModelMap "B").getD none
        else (⟨fun key => .ok (symObj "B" key), ["b0"]⟩ : ProviderVal Sym).models.head?) ∧
      s'.apiKey = (if jsTruthyStr (alookup stateA.apiKeyMap "B")
        then (alookup stateA.apiKeyMap "B").getD "" else "") ∧
      (alookup stateA.preferredModelMap "B" = none → alookup stateA.apiKeyMap "B" = none →
        s'.modelId = (⟨fun key => .ok (symObj "B" key), ["b0"]⟩ : ProviderVal Sym).models.head?
          ∧ s'.apiKey = "") :=
  c2_switch_restore psW ModelType.language stateA "B"
    ⟨fun key => .ok (symObj "B" key), ["b0"]⟩ (by decide) (by rfl)
    (psW_total ModelType.language)

/-- C5 counterexample: the committed renders of the switch from `stateAB`
("A" selected, credential "ka") to "B" carry, in order, the models
(A, "ka", a0) -- the pre-switch handle -- then (B, "ka", a0) -- a handle
recomputed from the NEW provider "B" paired with the OLD credential "ka"
and OLD model id "a0", committed before the restore effect's values have
settled -- and only then (B, "kb", b0).  The recomputation is therefore
triggered on exactly the intermediate state the claim rules out. -/
theorem c5_counterexample :
    Except.map (List.map HookState.model)
        (processEventTrace psW ModelType.language stateAB (.setSelectedProvider "B"))
      = .ok [⟨"A", "ka", some "a0", .language⟩,
             ⟨"B", "ka", some "a0", .language⟩,
             ⟨"B", "kb", some "b0", .language⟩] ∧
      ("ka" : String) ≠ "kb" := by
  exact ⟨rfl, by decide⟩

/-- C5 amended: the recompute effect does fire once on the intermediate
state (new provider with the old credential and model id), committing a
transient handle; but once the switch settles, the handle is the one
derived from the new provider together with the restored credential and
restored model id (last-write-wins). -/
theorem c5_settled_handle_reflects_restored {μ : Type} [DecidableEq μ]
    (ps : List (ProviderDesc μ)) (mt : ModelType) (s : HookState μ) (v : String)
    (vB : ProviderVal μ)
    (hv : v ≠ s.selectedProvider)
    (hB : alookup (providerMap ps) v = some vB)
    (hCT : ConstructTotal ps mt) :
    ∃ s' m, processEvent ps mt s (.setSelectedProvider v) = .ok s' ∧
      s'.selectedProvider = v ∧
      buildModel mt vB s'.apiKey s'.modelId = .ok m ∧
      s'.model = m := by
  obtain ⟨m1, hb1⟩ := hCT v vB hB s.apiKey s.modelId
  obtain ⟨m2, hb2⟩ := hCT v vB hB
    (if jsTruthyStr (alookup s.apiKeyMap v) then (alookup s.apiKeyMap v).getD "" else "")
    (if jsTruthyOpt (alookup s.preferredModelMap v)
      then (alookup s.preferredModelMap v).getD none else vB.models.head?)
  have h2 : effect2 ps { s with selectedProvider := v } = .ok
      (if jsTruthyOpt (alookup s.preferredModelMap v)
         then (alookup s.preferredModelMap v).getD none else vB.models.head?,
       if jsTruthyStr (alookup s.apiKeyMap v)
         then (alookup s.apiKeyMap v).getD "" else "") := by
    exact effect2_eq ps { s with selectedProvider := v } vB hB
  have hrun := processEvent_switch ps mt s v vB _ _ m1 m2 hv hB h2 hb1 hb2
  by_cases hP : (if jsTruthyStr (alookup s.apiKeyMap v)
        then (alookup s.apiKeyMap v).getD "" else "") = s.apiKey ∧
      (if jsTruthyOpt (alookup s.preferredModelMap v)
        then (alookup s.preferredModelMap v).getD none else vB.models.head?) = s.modelId
  · refine ⟨_, m1, hrun, rfl, ?_, ?_⟩
    · show buildModel mt vB _ _ = _
      rw [hP.1, hP.2, hb1]
    · show (if _ ∧ _ then m1 else m2) = m1
      rw [if_pos hP]
  · refine ⟨_, m2, hrun, rfl, ?_, ?_⟩
    · exact hb2
    · show (if _ ∧ _ then m1 else m2) = m2
      rw [if_neg hP]

/-- Witness for C5's amended theorem: the same switch as the
counterexample, from `stateAB` to "B". -/
theorem c5_settled_handle_reflects_restored_witness :
    ∃ s' m, processEvent psW ModelType.language stateAB (.setSelectedProvider "B") = .ok s' ∧
      s'.selectedProvider = "B" ∧
      buildModel ModelType.language (⟨fun key => .ok (symObj "B" key), ["b0"]⟩ : ProviderVal Sym)
        s'.apiKey s'.modelId = .ok m ∧
      s'.model = m :=
  c5_settled_handle_reflects_restored psW ModelType.language stateAB "B"
    ⟨fun key => .ok (symObj "B" key), ["b0"]⟩ (by decide) (by rfl)
    (psW_total ModelType.language)

end RMP

namespace RMP

theorem alookup_mapSet_branch {α : Type} (m : List (String × α)) (k k' : String)
    (v : α) (c : Prop) [Decidable c] (h : k' ≠ k) :
    alookup (if c then m else mapSet m k v) k' = alookup m k' := by
  split
  · rfl
  · exact alookup_mapSet_ne _ _ _ _ h

theorem processEvents_append {μ : Type} [DecidableEq μ] (ps : List (ProviderDesc μ))
    (mt : ModelType) (l1 l2 : List Event) (s : HookState μ) :
    processEvents ps mt s (l1 ++ l2) =
      match processEvents ps mt s l1 with
      | .error e => .error e
      | .ok s' => processEvents ps mt s' l2 := by
  induction l1 generalizing s with
  | nil => rfl
  | cons e rest ih =>
      simp only [List.cons_append, processEvents]
      cases processEvent ps mt s e with
      | error err => rfl
      | ok s' => exact ih s'

/-- C1: if credential "k1" and model id "m1" are recorded via
`setCredential`/`setModelId` while provider A is selected (both calls being
actual edits), then switching to a different provider B of the list,
performing arbitrary further `setCredential`/`setModelId` edits while B is
selected, and switching back to A ends with credential "k1" and model id
"m1" restored exactly. -/
theorem c1_switch_restore_round_trip {μ : Type} [DecidableEq μ]
    (ps : List (ProviderDesc μ)) (mt : ModelType) (s : HookState μ) (A B : String)
    (vA vB : ProviderVal μ) (edits : List Event)
    (hCT : ConstructTotal ps mt)
    (hA : alookup (providerMap ps) A = some vA)
    (hB : alookup (providerMap ps) B = some vB)
    (hAB : A ≠ B)
    (hsp : s.selectedProvider = A)
    (hk : s.apiKey ≠ "k1")
    (hm : s.modelId ≠ some "m1")
    (hedits : ∀ e ∈ edits, isEdit e = true) :
    ∃ sf, processEvents ps mt s
        ([Event.setApiKey "k1", Event.setModelId "m1", Event.setSelectedProvider B]
          ++ edits ++ [Event.setSelectedProvider A]) = .ok sf ∧
      sf.apiKey = "k1" ∧ sf.modelId = some "m1" ∧ sf.selectedProvider = A := by
  -- Step 1: record the credential while A is selected.
  have hspA : alookup (providerMap ps) s.selectedProvider = some vA := by
    rw [hsp]; exact hA
  obtain ⟨mk1, hbk1⟩ := hCT s.selectedProvider vA hspA "k1" s.modelId
  have hstep1 := processEvent_setApiKey ps mt s "k1" vA mk1 hspA hbk1 (Ne.symm hk)
  set s1 : HookState μ :=
    { s with
      apiKey := "k1",
      model := mk1,
      apiKeyMap := mapSet s.apiKeyMap s.selectedProvider "k1" } with hs1
  -- Step 2: record the model id while A is selected.
  obtain ⟨mm1, hbm1⟩ := hCT s1.selectedProvider vA hspA s1.apiKey (some "m1")
  have hstep2 := processEvent_setModelId ps mt s1 "m1" vA mm1 hspA hbm1 (Ne.symm hm)
  set s2 : HookState μ :=
    { s1 with
      modelId := some "m1",
      model := mm1,
      preferredModelMap := mapSet s1.preferredModelMap s1.selectedProvider (some "m1") }
    with hs2
  have f1 : alookup s2.apiKeyMap A = some "k1" := by
    rw [hs2, hs1]
    show alookup (mapSet s.apiKeyMap s.selectedProvider "k1") A = some "k1"
    rw [hsp]
    exact alookup_mapSet_self _ _ _
  have f2 : alookup s2.preferredModelMap A = some (some "m1") := by
    rw [hs2, hs1]
    show alookup (mapSet s.preferredModelMap s.selectedProvider (some "m1")) A
      = some (some "m1")
    rw [hsp]
    exact alookup_mapSet_self _ _ _
  -- Step 3: switch to B.
  have hvB : B ≠ s2.selectedProvider := by
    rw [hs2, hs1]
    show B ≠ s.selectedProvider
    rw [hsp]
    exact Ne.symm hAB
  obtain ⟨mb1, hbb1⟩ := hCT B vB hB s2.apiKey s2.modelId
  obtain ⟨mb2, hbb2⟩ := hCT B vB hB
    (if jsTruthyStr (alookup s2.apiKeyMap B) then (alookup s2.apiKeyMap B).getD "" else "")
    (if jsTruthyOpt (alookup s2.preferredModelMap B)
      then (alookup s2.preferredModelMap B).getD none else vB.models.head?)
  have h2B : effect2 ps { s2 with selectedProvider := B } = .ok
      (if jsTruthyOpt (alookup s2.preferredModelMap B)
         then (alookup s2.preferredModelMap B).getD none else vB.models.head?,
       if jsTruthyStr (alookup s2.apiKeyMap B)
         then (alookup s2.apiKeyMap B).getD "" else "") :=
    effect2_eq ps { s2 with selectedProvider := B } vB hB
  have hstep3 := processEvent_switch ps mt s2 B vB _ _ mb1 mb2 hvB hB h2B hbb1 hbb2
  set s3 : HookState μ :=
    { apiKeyMap := if (if jsTruthyStr (alookup s2.apiKeyMap B)
          then (alookup s2.apiKeyMap B).getD "" else "") = s2.apiKey
        then s2.apiKeyMap
        else mapSet s2.apiKeyMap B
          (if jsTruthyStr (alookup s2.apiKeyMap B)
            then (alookup s2.apiKeyMap B).getD "" else ""),
      preferredModelMap := if (if jsTruthyOpt (alookup s2.preferredModelMap B)
          then (alookup s2.preferredModelMap B).getD none else vB.models.head?) = s2.modelId
        then s2.preferredModelMap
        else mapSet s2.preferredModelMap B
          (if jsTruthyOpt (alookup s2.preferredModelMap B)
            then (alookup s2.preferredModelMap B).getD none else vB.models.head?),
      selectedProvider := B,
      apiKey := if jsTruthyStr (alookup s2.apiKeyMap B)
        then (alookup s2.apiKeyMap B).getD "" else "",
      modelId := if jsTruthyOpt (alookup s2.preferredModelMap B)
        then (alookup s2.preferredModelMap B).getD none else vB.models.head?,
      model := if (if jsTruthyStr (alookup s2.apiKeyMap B)
            then (alookup s2.apiKeyMap B).getD "" else "") = s2.apiKey ∧
          (if jsTruthyOpt (alookup s2.preferredModelMap B)
            then (alookup s2.preferredModelMap B).getD none else vB.models.head?) = s2.modelId
        then mb1 else mb2 } with hs3
  have g1 : alookup s3.apiKeyMap A = some "k1" := by
    rw [hs3]
    exact (alookup_mapSet_branch s2.apiKeyMap B A _ _ hAB).trans f1
  have g2 : alookup s3.preferredModelMap A = some (some "m1") := by
    rw [hs3]
    exact (alookup_mapSet_branch s2.preferredModelMap B A _ _ hAB).trans f2
  have g3 : alookup (providerMap ps) s3.selectedProvider = some vB := hB
  -- Step 4: arbitrary edits while B is selected.
  obtain ⟨s4, hrun4, hsp4, hpres4⟩ := edits_preserve ps mt hCT edits hedits s3 vB g3
  have hAne : A ≠ s3.selectedProvider := by
    rw [hs3]
    exact hAB
  have k1 : alookup s4.apiKeyMap A = some "k1" := (hpres4 A hAne).1.trans g1
  have k2 : alookup s4.preferredModelMap A = some (some "m1") :=
    (hpres4 A hAne).2.trans g2
  -- Step 5: switch back to A.
  have hvA : A ≠ s4.selectedProvider := by
    rw [hsp4]
    exact hAne
  obtain ⟨ma1, hba1⟩ := hCT A vA hA s4.apiKey s4.modelId
  obtain ⟨ma2, hba2⟩ := hCT A vA hA "k1" (some "m1")
  have h2A : effect2 ps { s4 with selectedProvider := A } = .ok (some "m1", "k1") := by
    have h := effect2_eq ps { s4 with selectedProvider := A } vA hA
    rw [show ({ s4 with selectedProvider := A } : HookState μ).preferredModelMap
        = s4.preferredModelMap from rfl] at h
    rw [show ({ s4 with selectedProvider := A } : HookState μ).apiKeyMap
        = s4.apiKeyMap from rfl] at h
    rw [show ({ s4 with selectedProvider := A } : HookState μ).selectedProvider
        = A from rfl] at h
    rw [k1, k2] at h
    simpa [jsTruthyOpt, jsTruthyStr] using h
  have hstep5 := processEvent_switch ps mt s4 A vA (some "m1") "k1" ma1 ma2 hvA hA h2A hba1 hba2
  -- Assemble the event chain.
  refine ⟨{ apiKeyMap := if "k1" = s4.apiKey then s4.apiKeyMap else mapSet s4.apiKeyMap A "k1",
            preferredModelMap := if some "m1" = s4.modelId then s4.preferredModelMap
              else mapSet s4.preferredModelMap A (some "m1"),
            selectedProvider := A,
            apiKey := "k1",
            modelId := some "m1",
            model := if "k1" = s4.apiKey ∧ some "m1" = s4.modelId then ma1 else ma2 },
    ?_, rfl, rfl, rfl⟩
  simp only [List.cons_append, List.nil_append]
  simp only [processEvents, hstep1]
  simp only [hstep2]
  simp only [hstep3]
  rw [processEvents_append]
  simp only [hrun4]
  simp only [processEvents, hstep5]

end RMP

namespace RMP

/-- Witness for C1 at `stateA` over `psW`, with two edits while "B" is
selected. -/
theorem c1_switch_restore_round_trip_witness :
    ∃ sf, processEvents psW ModelType.language stateA
        ([Event.setApiKey "k1", Event.setModelId "m1", Event.setSelectedProvider "B"]
          ++ [Event.setApiKey "kb", Event.setModelId "mb"]
          ++ [Event.setSelectedProvider "A"]) = .ok sf ∧
      sf.apiKey = "k1" ∧ sf.modelId = some "m1" ∧ sf.selectedProvider = "A" :=
  c1_switch_restore_round_trip psW ModelType.language stateA "A" "B"
    ⟨fun key => .ok (symObj "A" key), ["a0", "a1"]⟩
    ⟨fun key => .ok (symObj "B" key), ["b0"]⟩
    [Event.setApiKey "kb", Event.setModelId "mb"]
    (psW_total ModelType.language) (by rfl) (by rfl) (by decide) (by rfl)
    (by decide) (by decide) (by decide)

theorem pickerStabilize_fix {μ : Type} [DecidableEq μ] (ps : List (ProviderDesc μ))
    (mt : ModelType) (n : Nat) (prev cur : PickerState μ)
    (hf : pickerFlush ps mt prev cur = .ok cur) :
    pickerStabilize ps mt (n + 1) prev cur = .ok cur := by
  rw [pickerStabilize]
  simp [hf]

/-- C8: for every string x absent from the selected provider's known-model
list, `setModelId(x)` (as an actual edit) succeeds, the model id afterwards
is exactly x, and the custom-model toggle flag becomes true. -/
theorem c8_custom_model_id {μ : Type} [DecidableEq μ] (ps : List (ProviderDesc μ))
    (mt : ModelType) (s : PickerState μ) (x : String) (vp : ProviderVal μ) (m1 : μ)
    (hsp : alookup (providerMap ps) s.hook.selectedProvider = some vp)
    (hb : buildModel mt vp s.hook.apiKey (some x) = .ok m1)
    (hmem : x ∉ modelIdList ps s.hook.selectedProvider)
    (hne : some x ≠ s.hook.modelId) :
    processPickerEvent ps mt s (.setModelId x) = .ok
      ⟨⟨s.hook.apiKeyMap,
        mapSet s.hook.preferredModelMap s.hook.selectedProvider (some x),
        s.hook.selectedProvider, s.hook.apiKey, some x, m1⟩, true⟩ := by
  have hmem' : (modelIdList ps s.hook.selectedProvider).contains x = false := by
    simpa using hmem
  have hcur : ((⟨⟨s.hook.apiKeyMap, s.hook.preferredModelMap, s.hook.selectedProvider,
      s.hook.apiKey, some x, s.hook.model⟩, s.useCustomModelInput⟩ : PickerState μ)) ≠ s := by
    intro h
    exact hne (congrArg (fun t => t.hook.modelId) h)
  have hrA : getModel ps mt s.hook.selectedProvider s.hook.apiKey (some x) = .ok m1 := by
    simp [getModel, hsp, hb]
  have hf1 : pickerFlush ps mt s
      ⟨⟨s.hook.apiKeyMap, s.hook.preferredModelMap, s.hook.selectedProvider,
        s.hook.apiKey, some x, s.hook.model⟩, s.useCustomModelInput⟩
      = .ok ⟨⟨s.hook.apiKeyMap,
          mapSet s.hook.preferredModelMap s.hook.selectedProvider (some x),
          s.hook.selectedProvider, s.hook.apiKey, some x, m1⟩, true⟩ := by
    simp [pickerFlush, runPickerEffects, runEffects, effect1, hsp, hb, Ne.symm hne,
      jsIncludes, hmem', hmem]
  have hf2 : pickerFlush ps mt
      ⟨⟨s.hook.apiKeyMap, s.hook.preferredModelMap, s.hook.selectedProvider,
        s.hook.apiKey, some x, s.hook.model⟩, s.useCustomModelInput⟩
      ⟨⟨s.hook.apiKeyMap,
        mapSet s.hook.preferredModelMap s.hook.selectedProvider (some x),
        s.hook.selectedProvider, s.hook.apiKey, some x, m1⟩, true⟩
      = .ok ⟨⟨s.hook.apiKeyMap,
          mapSet s.hook.preferredModelMap s.hook.selectedProvider (some x),
          s.hook.selectedProvider, s.hook.apiKey, some x, m1⟩, true⟩ := by
    by_cases hfl : s.useCustomModelInput <;>
      simp [pickerFlush, runPickerEffects, runEffects, hfl]
  simp only [processPickerEvent, pickerDispatch]
  rw [if_neg hcur]
  simp only [hrA]
  exact pickerStabilize_run3 ps mt 5 s _ _ _ m1 m1 hf1 hrA hf2 hrA
    (pickerFlush_self ps mt _)

/-- Witness for C8: the custom id "custom-x" at `pStateList` over `psW`. -/
theorem c8_custom_model_id_witness :
    processPickerEvent psW ModelType.language pStateList (.setModelId "custom-x") = .ok
      ⟨⟨pStateList.hook.apiKeyMap,
        mapSet pStateList.hook.preferredModelMap pStateList.hook.selectedProvider
          (some "custom-x"),
        pStateList.hook.selectedProvider, pStateList.hook.apiKey, some "custom-x",
        ⟨"A", "", some "custom-x", .language⟩⟩, true⟩ :=
  c8_custom_model_id psW ModelType.language pStateList "custom-x"
    ⟨fun key => .ok (symObj "A" key), ["a0", "a1"]⟩ ⟨"A", "", some "custom-x", .language⟩
    (by rfl) (by rfl) (by decide) (by decide)

end RMP

namespace RMP

/-- C6 counterexample: `pStateList` is in list mode (flag false) with model
id "a1", the second known model of "A".  Clicking the toggle flips the flag
to true and leaves the model id at "a1": it does NOT snap to the first
known model id "a0", contradicting the claim that flipping while in list
mode snaps modelId to the first known model id. -/
theorem c6_counterexample :
    processPickerEvent psW ModelType.language pStateList PickerEvent.toggleCustom
        = .ok ⟨pStateList.hook, true⟩ ∧
      pStateList.useCustomModelInput = false ∧
      pStateList.hook.modelId = some "a1" ∧
      (modelIdList psW pStateList.hook.selectedProvider).head? = some "a0" ∧
      (some "a1" : Option String) ≠ some "a0" := by
  exact ⟨rfl, rfl, rfl, rfl, by decide⟩

/-- C6 amended: the side effect is the mirror image of the claim.  Flipping
the toggle while in list mode (flag false, into custom mode) changes the
flag only, with no effect on modelId; flipping it while in custom mode
(flag true, back into list mode) snaps modelId to the first known model id
of the selected provider (assuming it has one). -/
theorem c6_toggle_snaps_entering_list_mode {μ : Type} [DecidableEq μ]
    (ps : List (ProviderDesc μ)) (mt : ModelType) (s : PickerState μ)
    (vp : ProviderVal μ) (mh m0 : μ)
    (hsp : alookup (providerMap ps) s.hook.selectedProvider = some vp)
    (hr : buildModel mt vp s.hook.apiKey s.hook.modelId = .ok mh)
    (hb : buildModel mt vp s.hook.apiKey
      (modelIdList ps s.hook.selectedProvider).head? = .ok m0)
    (hL : modelIdList ps s.hook.selectedProvider ≠ []) :
    (s.useCustomModelInput = false →
      processPickerEvent ps mt s .toggleCustom = .ok ⟨s.hook, true⟩) ∧
    (s.useCustomModelInput = true →
      ∃ sf, processPickerEvent ps mt s .toggleCustom = .ok sf ∧
        sf.hook.modelId = (modelIdList ps s.hook.selectedProvider).head? ∧
        sf.useCustomModelInput = false) := by
  obtain ⟨l0, ltl, hLeq⟩ := List.exists_cons_of_ne_nil hL
  have hhead : (modelIdList ps s.hook.selectedProvider).head? = some l0 := by
    rw [hLeq]
    rfl
  have hrA : getModel ps mt s.hook.selectedProvider s.hook.apiKey s.hook.modelId
      = .ok mh := by
    simp [getModel, hsp, hr]
  constructor
  · intro hfl
    have hcur : (⟨s.hook, true⟩ : PickerState μ) ≠ s := by
      intro h
      have h2 := congrArg PickerState.useCustomModelInput h
      rw [hfl] at h2
      exact Bool.noConfusion h2
    have hf : pickerFlush ps mt s ⟨s.hook, true⟩ = .ok ⟨s.hook, true⟩ := by
      simp [pickerFlush, runPickerEffects, runEffects, hfl]
    simp only [processPickerEvent, pickerDispatch, hfl, Bool.not_false]
    rw [if_neg hcur]
    simp only [hrA]
    exact pickerStabilize_fix ps mt 7 s _ hf
  · intro hfl
    have hcur : (⟨s.hook, false⟩ : PickerState μ) ≠ s := by
      intro h
      have h2 := congrArg PickerState.useCustomModelInput h
      rw [hfl] at h2
      exact Bool.noConfusion h2
    have hb0 : buildModel mt vp s.hook.apiKey (some l0) = .ok m0 := by
      rw [← hhead]
      exact hb
    by_cases hmid : some l0 = s.hook.modelId
    · have hf : pickerFlush ps mt s ⟨s.hook, false⟩ = .ok ⟨s.hook, false⟩ := by
        simp [pickerFlush, runPickerEffects, runEffects, hfl, hhead, hmid]
      refine ⟨⟨s.hook, false⟩, ?_, ?_, rfl⟩
      · simp only [processPickerEvent, pickerDispatch, hfl, Bool.not_true]
        rw [if_neg hcur]
        simp only [hrA]
        exact pickerStabilize_fix ps mt 7 s _ hf
      · rw [hhead]
        exact hmid.symm
    · have hcont : (modelIdList ps s.hook.selectedProvider).contains l0 = true := by
        rw [hLeq]
        simp
      have hmem0 : l0 ∈ modelIdList ps s.hook.selectedProvider := by
        rw [hLeq]
        exact List.mem_cons_self _ _
      have hrB : getModel ps mt s.hook.selectedProvider s.hook.apiKey (some l0)
          = .ok m0 := by
        simp [getModel, hsp, hb0]
      have hf1 : pickerFlush ps mt s ⟨s.hook, false⟩ = .ok
          ⟨⟨s.hook.apiKeyMap, s.hook.preferredModelMap, s.hook.selectedProvider,
            s.hook.apiKey, some l0, s.hook.model⟩, false⟩ := by
        simp [pickerFlush, runPickerEffects, runEffects, hfl, hhead]
      have hf2 : pickerFlush ps mt ⟨s.hook, false⟩
          ⟨⟨s.hook.apiKeyMap, s.hook.preferredModelMap, s.hook.selectedProvider,
            s.hook.apiKey, some l0, s.hook.model⟩, false⟩ = .ok
          ⟨⟨s.hook.apiKeyMap,
            mapSet s.hook.preferredModelMap s.hook.selectedProvider (some l0),
            s.hook.selectedProvider, s.hook.apiKey, some l0, m0⟩, false⟩ := by
        simp [pickerFlush, runPickerEffects, runEffects, effect1, hsp, hb0,
          Ne.symm hmid, jsIncludes, hcont, hmem0]
      have hf3 : pickerFlush ps mt
          ⟨⟨s.hook.apiKeyMap, s.hook.preferredModelMap, s.hook.selectedProvider,
            s.hook.apiKey, some l0, s.hook.model⟩, false⟩
          ⟨⟨s.hook.apiKeyMap,
            mapSet s.hook.preferredModelMap s.hook.selectedProvider (some l0),
            s.hook.selectedProvider, s.hook.apiKey, some l0, m0⟩, false⟩ = .ok
          ⟨⟨s.hook.apiKeyMap,
            mapSet s.hook.preferredModelMap s.hook.selectedProvider (some l0),
            s.hook.selectedProvider, s.hook.apiKey, some l0, m0⟩, false⟩ := by
        simp [pickerFlush, runPickerEffects, runEffects]
      refine ⟨⟨⟨s.hook.apiKeyMap,
          mapSet s.hook.preferredModelMap s.hook.selectedProvider (some l0),
          s.hook.selectedProvider, s.hook.apiKey, some l0, m0⟩, false⟩, ?_, ?_, rfl⟩
      · simp only [processPickerEvent, pickerDispatch, hfl, Bool.not_true]
        rw [if_neg hcur]
        simp only [hrA]
        exact pickerStabilize_run3 ps mt 5 s _ _ _ m0 m0 hf1 hrB hf2 hrB hf3
      · rw [hhead]

/-- Witness for C6's amended theorem at `pStateList` over `psW`. -/
theorem c6_toggle_snaps_entering_list_mode_witness :
    (pStateList.useCustomModelInput = false →
      processPickerEvent psW ModelType.language pStateList .toggleCustom
        = .ok ⟨pStateList.hook, true⟩) ∧
    (pStateList.useCustomModelInput = true →
      ∃ sf, processPickerEvent psW ModelType.language pStateList .toggleCustom = .ok sf ∧
        sf.hook.modelId = (modelIdList psW pStateList.hook.selectedProvider).head? ∧
        sf.useCustomModelInput = false) :=
  c6_toggle_snaps_entering_list_mode psW ModelType.language pStateList
    ⟨fun key => .ok (symObj "A" key), ["a0", "a1"]⟩
    ⟨"A", "", some "a1", .language⟩ ⟨"A", "", some "a0", .language⟩
    (by rfl) (by rfl) (by rfl) (by decide)

end RMP
